import Mathlib

/-!
# Verification of the find3 fork's ingestion and reverse-aggregation core

Shallow embedding of the Go sources:
* `src/server/main/src/database/db.go` (per-family store: keystore,
  sensors table, predictions, gps table, handle close),
* `src/unnamed/part_000` (HTTP server: reverse aggregator
  `parseRollingData`, `processSensorData`, `sendOutData`,
  `handlerReverse`),
* `src/unnamed/part_002` (api: `SaveSensorData`).

Go `map[string]V` values are modelled as association lists with
insert-or-replace update (`alUpsert`) and first-match lookup
(`alookup`); Go `float64` quantities (RSSI, probabilities, GPS
coordinates) are modelled as `Rat`; timestamps and durations as `Int`
milliseconds.  SQL tables are modelled as explicit row lists, with
fallible operations returning `Except`.
-/

/-- First-match lookup in an association list (Go map read). -/
def alookup {α β : Type} [DecidableEq α] (k : α) : List (α × β) → Option β
  | [] => none
  | (a, b) :: l => if k = a then some b else alookup k l

/-- Insert-or-replace in an association list (Go map write `m[k] = v`). -/
def alUpsert {α β : Type} [DecidableEq α] (k : α) (v : β) : List (α × β) → List (α × β)
  | [] => [(k, v)]
  | (a, b) :: l => if a = k then (k, v) :: l else (a, b) :: alUpsert k v l

/-- Go GPS struct (`models.GPS`): latitude, longitude, altitude. -/
structure GPS where
  latitude : Rat
  longitude : Rat
  altitude : Rat
  deriving Repr, DecidableEq

/-- The zero GPS value (Go zero struct; `(0,0)` means absent). -/
def gpsZero : GPS := ⟨0, 0, 0⟩

/-- Go `models.SensorData`: one fingerprint.  `sensors` maps a
sensor-category to an inner map from MAC address to RSSI-like value. -/
structure SensorData where
  timestamp : Int
  family : String
  device : String
  location : String
  gps : GPS
  sensors : List (String × List (String × Rat))
  deriving Repr, DecidableEq

/-- Go `models.LocationPrediction` (fields used by `db.go`). -/
structure LocationPrediction where
  location : String
  probability : Rat
  deriving Repr, DecidableEq

/-- Go `models.LocationAnalysis` (the field used by the server). -/
structure LocationAnalysis where
  guesses : List LocationPrediction
  deriving Repr, DecidableEq

/-! ## AddPrediction (db.go lines 226-253) -/

/-- The predictions table `location_predictions(timestamp PK, prediction)`:
an association list keyed by timestamp. -/
def PredictionTable : Type := List (Int × List LocationPrediction)

/-- Go's `int64(x)` float-to-int conversion truncates toward zero;
`Int.tdiv` is Lean's truncating (T-)division, so `q.num.tdiv q.den`
truncates the rational toward zero. -/
def truncTowardZero (q : Rat) : Int := q.num.tdiv q.den

/-- One step of db.go line 235:
`aidata[i].Probability = float64(int64(float64(p)*100)) / 100`. -/
def truncProb (p : Rat) : Rat := (truncTowardZero (p * 100) : Rat) / 100

/-- `AddPrediction` (db.go lines 226-253): reject an empty guess list,
truncate each probability to two decimals, and upsert the row keyed by
`timestamp` (`insert ... on duplicate key update`).  JSON
marshalling of the guess list is modelled as the identity. -/
def AddPrediction (table : PredictionTable) (timestamp : Int)
    (aidata : List LocationPrediction) : Except String PredictionTable :=
  if aidata.length = 0 then
    .error "no predictions to add"
  else
    .ok (alUpsert timestamp
      (aidata.map fun g => { g with probability := truncProb g.probability }) table)

/-- The committed predictions table after a call: an `AddPrediction`
error path returns before any statement is executed, so the table is
unchanged. -/
def predictionTableAfter (table : PredictionTable) (timestamp : Int)
    (aidata : List LocationPrediction) : PredictionTable :=
  match AddPrediction table timestamp aidata with
  | .ok t => t
  | .error _ => table

/-! ## Database.Close (db.go lines 802-821) -/

/-- The state touched by `Database.Close`: the handle's `isClosed` and
`name` fields, the global `databaseLock.Locked` map (a set of database
names), whether the underlying `sql.DB` connection is still open, and
the error that `d.db.Close()` would report. -/
structure CloseState where
  name : String
  isClosed : Bool
  locked : List String
  connOpen : Bool
  connCloseErr : Option String
  deriving Repr, DecidableEq

/-- `Close` (db.go lines 802-821): an early return when `isClosed`;
otherwise close the connection (recording its error, if any), delete the
handle's name from `databaseLock.Locked`, and set `isClosed`. -/
def DatabaseClose (s : CloseState) : CloseState × Option String :=
  if s.isClosed then
    (s, none)
  else
    ({ s with
        connOpen := false
        locked := s.locked.filter (fun n => ¬ (n = s.name))
        isClosed := true },
      s.connCloseErr)

/-! ## AddSensor (db.go lines 278-331) -/

/-- One row of the `sensors` table as this fork writes it
(`insert into sensors(timestamp,deviceid,locationid,bluetooth)`).
The `bluetooth` cell holds the KeyCompressor-encoded inner map of the
`"bluetooth"` sensor-category; since no claim here concerns the
encoding itself, the cell is modelled by the map it encodes. -/
structure SensorRow where
  timestamp : Int
  deviceid : String
  locationid : String
  bluetooth : List (String × Rat)
  deriving Repr, DecidableEq

/-- The `sensors` table: its current column list and its rows.  The
column list is whatever the table was created with; this fork's
`MakeTables` is never called from `Open`, so it is left abstract. -/
structure SensorsTable where
  columns : List String
  rows : List SensorRow
  deriving Repr, DecidableEq

/-- `Database.Columns` (db.go lines 115-129). -/
def Columns (t : SensorsTable) : List String := t.columns

/-- `AddSensor` (db.go lines 278-331).  It reads the current columns
into `oldColumns` but never uses them: no `ALTER TABLE` is issued and
`columns` is returned unchanged.  It then executes a plain
`insert into sensors(timestamp,deviceid,locationid,bluetooth)`
— not an upsert, so a duplicate of the `timestamp` primary key makes
the execute fail — storing only the `"bluetooth"` inner map
(`s.Sensors["bluetooth"]`, the empty map when absent).
The row built from the insert's four bind arguments: -/
def insertedRow (s : SensorData) : SensorRow :=
  { timestamp := s.timestamp
    deviceid := s.device
    locationid := s.location
    bluetooth := (alookup "bluetooth" s.sensors).getD [] }

/-- `AddSensor` itself (see `insertedRow` above for the row layout). -/
def AddSensor (t : SensorsTable) (s : SensorData) : Except String SensorsTable :=
  let _oldColumns := Columns t
  if t.rows.any (fun r => r.timestamp = s.timestamp) then
    .error "AddSensor, execute"
  else
    .ok { t with rows := t.rows ++ [insertedRow s] }

/-- The committed sensors table after an `AddSensor` call (the failed
insert commits nothing). -/
def sensorsTableAfter (t : SensorsTable) (s : SensorData) : SensorsTable :=
  match AddSensor t s with
  | .ok t' => t'
  | .error _ => t

/-- An ingest sequence: `AddSensor` applied over a list of fingerprints
(each call keeps the table unchanged when it fails). -/
def ingestSeq (t : SensorsTable) : List SensorData → SensorsTable
  | [] => t
  | s :: rest => ingestSeq (sensorsTableAfter t s) rest

/-- The sensor-categories of a fingerprint. -/
def sensorCategories (s : SensorData) : List String := s.sensors.map Prod.fst

/-- The fixed column set of this fork's sensors table. -/
def baseColumns : List String := ["timestamp", "deviceid", "locationid", "bluetooth"]

/-- A fingerprint whose only sensor-category is `"wifi"`. -/
def wifiSample : SensorData :=
  { timestamp := 1
    family := "home"
    device := "phone"
    location := ""
    gps := gpsZero
    sensors := [("wifi", [("aa:bb", -10)])] }

/-! ## SetGPS (db.go lines 912-938) -/

/-- One row of the `gps` table (the serial `id` column is omitted:
`insert or replace into gps(timestamp, mac, loc, lat, lon, alt)`;
the table has no unique constraint on these columns, so every
execute appends a fresh row). -/
structure GpsRow where
  timestamp : Int
  mac : String
  loc : String
  lat : Rat
  lon : Rat
  alt : Rat
  deriving Repr, DecidableEq

/-- The gps row written for one `(sensorType, mac)` pair of `p`
(db.go line 926). -/
def gpsRowOf (p : SensorData) (sensorType mac : String) : GpsRow :=
  { timestamp := p.timestamp
    mac := sensorType ++ "-" ++ mac
    loc := p.location
    lat := p.gps.latitude
    lon := p.gps.longitude
    alt := p.gps.altitude }

/-- All rows `SetGPS` executes, one per `(sensorType, mac)` pair of
`p.sensors`, in iteration order. -/
def gpsRowsOf (p : SensorData) : List GpsRow :=
  p.sensors.flatMap fun ci => ci.2.map fun mv => gpsRowOf p ci.1 mv.1

/-- The transaction body of `SetGPS`: execute the statements one by one
inside the open transaction, accumulating the uncommitted buffer; any
failing execute aborts with `"SetGPS"` before `tx.Commit()`, so nothing
reaches the table.  `execFails` models which executes the driver
rejects. -/
def setGPSLoop (table : List GpsRow) (execFails : GpsRow → Bool) :
    List GpsRow → List GpsRow → Except String (List GpsRow)
  | buffer, [] => .ok (table ++ buffer)
  | buffer, row :: rest =>
    if execFails row then .error "SetGPS"
    else setGPSLoop table execFails (buffer ++ [row]) rest

/-- `SetGPS` (db.go lines 912-938): begin a transaction, execute one
insert per `(sensorType, mac)` pair of `p.sensors`, commit at the end.
The result is the committed `gps` table; an error means no commit
happened, so the committed table is the input table. -/
def SetGPS (table : List GpsRow) (p : SensorData) (execFails : GpsRow → Bool) :
    Except String (List GpsRow) :=
  setGPSLoop table execFails [] (gpsRowsOf p)

/-- The committed gps table after a `SetGPS` call. -/
def gpsTableAfter (table : List GpsRow) (p : SensorData)
    (execFails : GpsRow → Bool) : List GpsRow :=
  match SetGPS table p execFails with
  | .ok t => t
  | .error _ => table

/-! ## The api layer (src/unnamed/part_002): SaveSensorData -/

/-- The per-family database state touched by `SaveSensorData`. -/
structure Db where
  sensors : SensorsTable
  gps : List GpsRow
  deriving Repr, DecidableEq

/-- Modelled from the spec: `models.SensorData.Validate` is not under
src/ (only its callers are).  Spec section 4.4: family non-empty after
normalization, at least one non-empty inner sensor map,
timestamp > 0.  Returns the validation error, if any. -/
def Validate (s : SensorData) : Option String :=
  if s.family = "" then some "family cannot be empty"
  else if s.sensors.any (fun ci => !ci.2.isEmpty) = false then
    some "sensor data cannot be empty"
  else if s.timestamp ≤ 0 then some "timestamp is not valid"
  else none

/-- `api.SaveSensorData` (part_002 lines 26-52): validate, `AddSensor`,
and — when both GPS coordinates are non-zero — `SetGPS`, whose error is
discarded (`db.SetGPS(s)` with no assignment); the returned error is
the `AddSensor` one.  A failed `AddSensor` leaves the sensors table
unchanged but `SetGPS` is still attempted. -/
def SaveSensorData (db : Db) (s : SensorData) (gpsExecFails : GpsRow → Bool) :
    Db × Option String :=
  match Validate s with
  | some e => (db, some ("problem validating data: " ++ e))
  | none =>
    let resAdd : SensorsTable × Option String :=
      match AddSensor db.sensors s with
      | .ok t => (t, none)
      | .error e => (db.sensors, some e)
    let gps' :=
      if s.gps.longitude ≠ 0 ∧ s.gps.latitude ≠ 0 then
        gpsTableAfter db.gps s gpsExecFails
      else db.gps
    ({ sensors := resAdd.1, gps := gps' }, resAdd.2)

/-! ## processSensorData (part_000 lines 692-702) -/

/-- The delivery guard of `processSensorData`:
`if len(justSave) < 0 || !justSave[0]`.  `len(justSave) < 0` is never
true, so Go always evaluates `justSave[0]`; on an empty variadic slice
that indexing panics (index out of range), modelled as `none`.
`some b` means the guard evaluated to `b` (dispatch delivery iff `b`). -/
def justSaveGuard (justSave : List Bool) : Option Bool :=
  if justSave.length < 0 then some true
  else
    match justSave with
    | [] => none
    | b :: _ => some (!b)

/-- Outcome of a `processSensorData` call together with the database
state it leaves behind. -/
inductive ProcResult where
  | saveError (e : String) (db : Db)
  | indexPanic (db : Db)
  | done (delivered : Bool) (db : Db)
  deriving Repr, DecidableEq

/-- `processSensorData` (part_000 lines 692-702): save via
`api.SaveSensorData`, return its error if any; otherwise evaluate the
delivery guard — panicking when `justSave` was omitted — and dispatch
`go sendOutData(p)` iff the guard is true. -/
def processSensorData (p : SensorData) (justSave : List Bool) (db : Db)
    (gpsExecFails : GpsRow → Bool) : ProcResult :=
  match SaveSensorData db p gpsExecFails with
  | (db', some e) => .saveError e db'
  | (db', none) =>
    match justSaveGuard justSave with
    | none => .indexPanic db'
    | some deliver => .done deliver db'

/-! ## The reverse aggregator (part_000 lines 554-690) -/

/-- The synthetic-device name `sensor + "-" + mac` (part_000 line 642). -/
def trackedName (cat mac : String) : String := cat ++ "-" ++ mac

/-- The scanner key `data.Device + "-" + sensor` (part_000 line 664). -/
def scannerKey (scanner cat : String) : String := scanner ++ "-" ++ cat

/-- One observation of the triple-nested merge loop: sample `d`
(scanner `d.Device`) reported `rssi` for `mac` under category `cat`. -/
structure Obs where
  scanner : String
  cat : String
  mac : String
  rssi : Rat
  deriving Repr, DecidableEq

/-- The observations of one sample, in iteration order. -/
def obsOfSample (d : SensorData) : List Obs :=
  d.sensors.flatMap fun ci => ci.2.map fun mv => ⟨d.device, ci.1, mv.1, mv.2⟩

/-- The observations of the whole window, samples in `datas` order. -/
def obsOfDatas (datas : List SensorData) : List Obs := datas.flatMap obsOfSample

/-- `sensorMap` of `parseRollingData`. -/
abbrev SensorMap := List (String × SensorData)

/-- The entry created at part_000 lines 653-660 for a tracked name not
yet in `sensorMap`: location from `DeviceLocation`, gps from
`DeviceGPS` (zero value when absent), one empty inner map for the
creating category.  All entries of one flush are created within a few
tens of milliseconds; their `time.Now()` timestamps are modelled as the
single flush instant `now` (no claim concerns these timestamps). -/
def freshEntry (family : String) (now : Int) (dl : List (String × String))
    (dg : List (String × GPS)) (name cat : String) : SensorData :=
  { timestamp := now
    family := family
    device := name
    location := (alookup name dl).getD ""
    gps := (alookup name dg).getD gpsZero
    sensors := [(cat, [])] }

/-- The write at part_000 line 664:
`sensorMap[name].Sensors[sensor][d.Device+"-"+sensor] = rssi`, given
the current inner map `inner` of category `o.cat`. -/
def writeObs (sd : SensorData) (o : Obs) (inner : List (String × Rat)) : SensorData :=
  { sd with sensors :=
      alUpsert o.cat (alUpsert (scannerKey o.scanner o.cat) o.rssi inner) sd.sensors }

/-- Process one observation against `sensorMap`.  When the tracked name
exists but its `Sensors` map has no entry for `o.cat` (possible only
when two distinct `(category, mac)` pairs concatenate to the same
tracked name), the Go assignment writes into a nil map and panics;
modelled as `none`. -/
def addObs (family : String) (now : Int) (dl : List (String × String))
    (dg : List (String × GPS)) (m : SensorMap) (o : Obs) : Option SensorMap :=
  match alookup (trackedName o.cat o.mac) m with
  | none =>
    some (alUpsert (trackedName o.cat o.mac)
      (writeObs (freshEntry family now dl dg (trackedName o.cat o.mac) o.cat) o []) m)
  | some sd =>
    match alookup o.cat sd.sensors with
    | none => none
    | some inner => some (alUpsert (trackedName o.cat o.mac) (writeObs sd o inner) m)

/-- The merge loop over a list of observations. -/
def obsFold (family : String) (now : Int) (dl : List (String × String))
    (dg : List (String × GPS)) : SensorMap → List Obs → Option SensorMap
  | m, [] => some m
  | m, o :: l =>
    match addObs family now dl dg m o with
    | none => none
    | some m' => obsFold family now dl dg m' l

/-- The merge of part_000 lines 638-667: the triple-nested loop over
`rollingData.Datas`, flattened in iteration order. -/
def transposeData (family : String) (now : Int) (dl : List (String × String))
    (dg : List (String × GPS)) (datas : List SensorData) : Option SensorMap :=
  obsFold family now dl dg [] (obsOfDatas datas)

/-- Go `models.ReverseRollingData`; `timestamp` (window-open instant)
and `timeBlock` in milliseconds. -/
structure ReverseRollingData where
  family : String
  timestamp : Int
  timeBlock : Int
  hasData : Bool
  datas : List SensorData
  deviceLocation : List (String × String)
  deviceGPS : List (String × GPS)
  minimumPassive : Int
  deriving Repr, DecidableEq

/-- `parseRollingData` without its database plumbing (part_000 lines
626-671): when a window is open and more than `timeBlock` has elapsed,
merge the window into `sensorMap` and clear `hasData` (the `datas`
field is left as it was); otherwise leave the record alone.  The
returned pair is (record written back by `db.Set`, `sensorMap`);
`none` models the merge panicking, in which case nothing is written
back. -/
def parseRollingData (rd : ReverseRollingData) (now : Int) :
    Option (ReverseRollingData × SensorMap) :=
  if rd.hasData ∧ now - rd.timestamp > rd.timeBlock then
    match transposeData rd.family now rd.deviceLocation rd.deviceGPS rd.datas with
    | none => none
    | some m => some ({ rd with hasData := false }, m)
  else
    some (rd, [])

/-- `numPassivePoints` of a synthesized fingerprint (part_000 lines
674-677): total size of its inner maps over all sensor-categories. -/
def totalPoints (sd : SensorData) : Nat :=
  (sd.sensors.map fun ci => ci.2.length).sum

/-- The emission filter of part_000 lines 672-687: the synthesized
fingerprints for which `processSensorData` is invoked, i.e. those not
skipped by `numPassivePoints < rollingData.MinimumPassive`. -/
def flushEmit (m : SensorMap) (minimumPassive : Int) : List SensorData :=
  (m.map Prod.snd).filter fun sd => !(decide ((totalPoints sd : Int) < minimumPassive))

/-- The default `ReverseRollingData` built by `handlerReverse` when the
keystore has no record (part_000 lines 582-588). -/
def defaultRollingData (family : String) : ReverseRollingData :=
  { family := family
    timestamp := 0
    timeBlock := 90000
    hasData := false
    datas := []
    deviceLocation := []
    deviceGPS := []
    minimumPassive := 0 }

/-- The `ReverseRollingData` update performed by `handlerReverse`
(part_000 lines 579-608) on a validated, family-normalized sample `d`:
substitute the default record (and the default 90 s `timeBlock`),
re-open a fresh window when none is open, reject a sample with no
sensors, and append `d` to the window.  On error nothing is written
back. -/
def handlerReverseUpdate (stored : Option ReverseRollingData) (family : String)
    (d : SensorData) (now : Int) : Except String ReverseRollingData :=
  let rd0 := match stored with
    | some r => r
    | none => defaultRollingData family
  let rd1 := if rd0.timeBlock = 0 then { rd0 with timeBlock := 90000 } else rd0
  let rd2 := if !rd1.hasData then { rd1 with timestamp := now, datas := [], hasData := true }
    else rd1
  if d.sensors.isEmpty then .error "no fingerprints"
  else .ok { rd2 with datas := rd2.datas ++ [d] }

/-! ## sendOutData (part_000 lines 704-751) -/

/-- The delivery payload (part_000 lines 710-715). -/
structure Payload where
  sensors : SensorData
  guesses : List LocationPrediction
  location : String
  time : Int
  deriving Repr, DecidableEq

/-- `sendOutData` without its fan-out plumbing (part_000 lines
704-751): fail with "no guesses" on an empty analysis; otherwise
overwrite `p`'s latitude/longitude from the classifier's GPS data for
the top guess's location when `GetGPSData` succeeded and contains that
location, and with `-1` / `-1` otherwise (the altitude is not touched in
either branch); then build the payload.  `gpsDataErr` is the
`GetGPSData` error flag, `gpsData` the returned per-location GPS map
(the struct's fields beyond `.GPS` are dropped). -/
def sendOutData (p : SensorData) (analysis : LocationAnalysis)
    (gpsDataErr : Bool) (gpsData : List (String × GPS)) : Except String Payload :=
  match analysis.guesses with
  | [] => .error "no guesses"
  | top :: _ =>
    let p' :=
      match gpsDataErr, alookup top.location gpsData with
      | false, some g =>
        { p with gps := { p.gps with latitude := g.latitude, longitude := g.longitude } }
      | _, _ =>
        { p with gps := { p.gps with latitude := -1, longitude := -1 } }
    .ok { sensors := p', guesses := analysis.guesses, location := top.location,
          time := p.timestamp }

/-! ## Concrete fixtures (spec scenario 2: two passive scanners) -/

/-- Scanner `s1` reports `{bluetooth: {aa:bb: -50}}`. -/
def scan1 : SensorData :=
  { timestamp := 1
    family := "home"
    device := "s1"
    location := ""
    gps := gpsZero
    sensors := [("bluetooth", [("aa:bb", -50)])] }

/-- Scanner `s2` reports `{bluetooth: {aa:bb: -70, cc:dd: -55}}`. -/
def scan2 : SensorData :=
  { timestamp := 2
    family := "home"
    device := "s2"
    location := ""
    gps := gpsZero
    sensors := [("bluetooth", [("aa:bb", -70), ("cc:dd", -55)])] }

/-- An empty per-family database with the fork's fixed sensor columns. -/
def db0 : Db := ⟨⟨baseColumns, []⟩, []⟩

/-- An open window holding `scan1` (for the C6 counterexample). -/
def rdOneSample : ReverseRollingData :=
  { defaultRollingData "home" with hasData := true, datas := [scan1] }

/-- An open window holding `scan1, scan2` with `minimumPassive = 2`
(spec scenario 3). -/
def rdTwoSamples : ReverseRollingData :=
  { defaultRollingData "home" with
      hasData := true, datas := [scan1, scan2], minimumPassive := 2 }

/-- The fingerprint synthesized for `bluetooth-aa:bb` from
`rdTwoSamples` at flush instant 100000. -/
def fpAabb : SensorData :=
  { timestamp := 100000
    family := "home"
    device := "bluetooth-aa:bb"
    location := ""
    gps := gpsZero
    sensors := [("bluetooth", [("s1-bluetooth", -50), ("s2-bluetooth", -70)])] }

/-- The fingerprint synthesized for `bluetooth-cc:dd` from
`rdTwoSamples` at flush instant 100000. -/
def fpCcdd : SensorData :=
  { timestamp := 100000
    family := "home"
    device := "bluetooth-cc:dd"
    location := ""
    gps := gpsZero
    sensors := [("bluetooth", [("s2-bluetooth", -55)])] }

/-- The `sensorMap` the flush of `rdTwoSamples` builds. -/
def flushMap : SensorMap := [("bluetooth-aa:bb", fpAabb), ("bluetooth-cc:dd", fpCcdd)]

/-- A fingerprint carrying a non-zero altitude (the reverse-settings
endpoint lets `deviceGPS` carry altitudes into synthesized
fingerprints). -/
def pAlt : SensorData :=
  { timestamp := 42
    family := "home"
    device := "phone"
    location := ""
    gps := ⟨3, 4, 7⟩
    sensors := [("bluetooth", [("aa:bb", -40)])] }

/-- A one-guess analysis whose top location is `"kitchen"`. -/
def analysisKitchen : LocationAnalysis := ⟨[⟨"kitchen", 1⟩]⟩

/-- The evolution of the `sensorMap` entry for one fixed tracked name
through a list of observations: observations for other names are
skipped (they touch other entries), an observation for this name
creates the entry on first sight and writes into its inner map
afterwards, panicking (`none`) when the entry's `Sensors` lacks the
observation's category. -/
def evolve (family : String) (now : Int) (dl : List (String × String))
    (dg : List (String × GPS)) (name : String) :
    Option SensorData → List Obs → Option (Option SensorData)
  | cur, [] => some cur
  | cur, o :: l =>
    if trackedName o.cat o.mac = name then
      match cur with
      | none =>
        evolve family now dl dg name
          (some (writeObs (freshEntry family now dl dg name o.cat) o [])) l
      | some sd =>
        match alookup o.cat sd.sensors with
        | none => none
        | some inner => evolve family now dl dg name (some (writeObs sd o inner)) l
    else evolve family now dl dg name cur l

/-- The inner map gathered for the pair `(cat, mac)` over a list of
observations, last write winning, starting from `inner`. -/
def gatherAcc (cat mac : String) : List (String × Rat) → List Obs → List (String × Rat)
  | inner, [] => inner
  | inner, o :: l =>
    if o.cat = cat ∧ o.mac = mac then
      gatherAcc cat mac (alUpsert (scannerKey o.scanner cat) o.rssi inner) l
    else gatherAcc cat mac inner l

/-- Well-formedness of a fingerprint coming from a Go map: category
keys and the keys of every inner map are duplicate-free. -/
def WFSensors (d : SensorData) : Prop :=
  (d.sensors.map Prod.fst).Nodup ∧ ∀ ci ∈ d.sensors, (ci.2.map Prod.fst).Nodup

/-- Spec-side readout (spec section 4.3, transpose pseudocode): fold the
window's samples in order, writing each sample's report of `(cat, mac)`
under the scanner key `d.device + "-" + cat`, last write winning. -/
def gatherSpecAcc (cat mac : String) :
    List (String × Rat) → List SensorData → List (String × Rat)
  | acc, [] => acc
  | acc, d :: rest =>
    gatherSpecAcc cat mac
      (match (alookup cat d.sensors).bind (alookup mac) with
        | some rssi => alUpsert (scannerKey d.device cat) rssi acc
        | none => acc) rest

/-- The inner map the spec predicts for the synthetic device
`cat + "-" + mac` of a window. -/
def gatherSpec (cat mac : String) (datas : List SensorData) : List (String × Rat) :=
  gatherSpecAcc cat mac [] datas

/-- The last RSSI that scanner `scanner` reported for `(cat, mac)`
within the window, if any (later samples override earlier ones). -/
def lastReportAcc (cat mac scanner : String) :
    Option Rat → List SensorData → Option Rat
  | start, [] => start
  | start, d :: rest =>
    lastReportAcc cat mac scanner
      (if d.device = scanner then
        match (alookup cat d.sensors).bind (alookup mac) with
        | some r => some r
        | none => start
      else start) rest

/-- `lastReportAcc` from no report. -/
def lastReport (cat mac scanner : String) (datas : List SensorData) : Option Rat :=
  lastReportAcc cat mac scanner none datas

/-! ## Theorems -/

theorem alookup_alUpsert_self {α β : Type} [DecidableEq α] (k : α) (v : β) :
    ∀ l : List (α × β), alookup k (alUpsert k v l) = some v := by
  intro l
  induction l with
  | nil => simp [alookup, alUpsert]
  | cons hd tl ih =>
    obtain ⟨a, b⟩ := hd
    by_cases h : a = k
    · simp [alookup, alUpsert, h]
    · simp only [alUpsert, if_neg h, alookup]
      rw [if_neg (fun hk => h hk.symm), ih]

theorem alookup_alUpsert_ne {α β : Type} [DecidableEq α] (k k' : α) (v : β)
    (hne : k' ≠ k) : ∀ l : List (α × β), alookup k' (alUpsert k v l) = alookup k' l := by
  intro l
  induction l with
  | nil => simp [alookup, alUpsert, hne]
  | cons hd tl ih =>
    obtain ⟨a, b⟩ := hd
    by_cases h : a = k
    · subst h
      simp [alookup, alUpsert, hne]
    · simp only [alUpsert, if_neg h, alookup, ih]

theorem truncProb_mul_hundred_int (p : Rat) :
    (truncProb p) * 100 = (truncTowardZero (p * 100) : Rat) := by
  unfold truncProb
  rw [div_mul_cancel₀]
  norm_num

theorem truncTowardZero_nonneg_eq_floor (q : Rat) (hq : 0 ≤ q) :
    truncTowardZero q = Int.floor q := by
  unfold truncTowardZero
  rw [Int.tdiv_eq_ediv (Rat.num_nonneg.mpr hq) (Int.ofNat_nonneg q.den)]
  rw [Rat.floor_def]

/-- **C4** For every timestamp and non-empty guess list, `AddPrediction`
succeeds, stores each guess with its probability truncated toward zero to
two decimals — which equals `⌊p·100⌋/100` since probabilities are
nonnegative — upserts on the timestamp key (other keys untouched), and
every stored probability times 100 is an integer. -/
theorem AddPrediction_quantizes (table : PredictionTable) (timestamp : Int)
    (aidata : List LocationPrediction) (hne : aidata ≠ [])
    (hpos : ∀ g ∈ aidata, 0 ≤ g.probability) :
    ∃ stored, AddPrediction table timestamp aidata = .ok (alUpsert timestamp stored table) ∧
      stored = aidata.map (fun g => { g with probability := truncProb g.probability }) ∧
      alookup timestamp (alUpsert timestamp stored table) = some stored ∧
      (∀ ts ≠ timestamp,
        alookup ts (alUpsert timestamp stored table) = alookup ts table) ∧
      (∀ g' ∈ stored, ∃ z : Int, g'.probability * 100 = (z : Rat)) ∧
      (∀ g ∈ aidata,
        truncProb g.probability = (Int.floor (g.probability * 100) : Rat) / 100) := by
  refine ⟨aidata.map (fun g => { g with probability := truncProb g.probability }),
    ?_, rfl, alookup_alUpsert_self _ _ _, fun ts hts => alookup_alUpsert_ne _ _ _ hts _,
    ?_, ?_⟩
  · unfold AddPrediction
    rw [if_neg (by simpa using hne)]
  · intro g' hg'
    simp only [List.mem_map] at hg'
    obtain ⟨g, _, rfl⟩ := hg'
    exact ⟨truncTowardZero (g.probability * 100), truncProb_mul_hundred_int _⟩
  · intro g hg
    unfold truncProb
    have h0 : (0 : Rat) ≤ g.probability * 100 := by
      have := hpos g hg
      positivity
    rw [truncTowardZero_nonneg_eq_floor _ h0]

/-- Witness for C4 at spec scenario 6: probability `0.78349` is stored
as `0.78`. -/
theorem AddPrediction_quantizes_witness :
    ([(⟨"kitchen", (78349 : Rat)/100000⟩ : LocationPrediction)] ≠ []) ∧
      ∃ stored,
        AddPrediction [] 5 [⟨"kitchen", (78349 : Rat)/100000⟩] = .ok (alUpsert 5 stored []) ∧
        stored = [⟨"kitchen", (78 : Rat)/100⟩] := by
  refine ⟨by simp, ?_⟩
  obtain ⟨stored, h1, h2, -⟩ :=
    AddPrediction_quantizes [] 5 [⟨"kitchen", (78349 : Rat)/100000⟩] (by simp)
      (by intro g hg; simp at hg; subst hg; norm_num)
  refine ⟨stored, h1, ?_⟩
  rw [h2]
  simp only [List.map_cons, List.map_nil]
  have h78 : Int.tdiv 78349 1000 = 78 := by decide
  norm_num [truncProb, truncTowardZero]
  rw [h78]
  norm_num

/-- **C9** `AddPrediction` with an empty guess list returns the error
`"no predictions to add"` before touching the database, so the stored
prediction at every timestamp — in particular the same timestamp — is
unchanged. -/
theorem AddPrediction_empty_noop (table : PredictionTable) (timestamp : Int) :
    AddPrediction table timestamp [] = .error "no predictions to add" ∧
      predictionTableAfter table timestamp [] = table ∧
      (∀ ts : Int, alookup ts (predictionTableAfter table timestamp []) =
        alookup ts table) := by
  refine ⟨rfl, rfl, fun ts => rfl⟩

/-- **C10** `Database.Close` is idempotent: running `Close` again on the
state left by any `Close` returns `nil` and changes nothing, so
`Close ∘ Close` is observably equal to `Close`. -/
theorem DatabaseClose_idempotent (s : CloseState) :
    DatabaseClose (DatabaseClose s).1 = ((DatabaseClose s).1, none) ∧
      (DatabaseClose (DatabaseClose s).1).1 = (DatabaseClose s).1 := by
  unfold DatabaseClose
  by_cases h : s.isClosed <;> simp [h]

/-- **C1 counterexample** The claim says `AddSensor` adds a column for
each sensor-category of `s.sensors` not yet present and that the row's
encoded cells cover every sensor-category of `s.sensors`.  On a table
with the fork's fixed columns, ingesting a fingerprint whose only
category is `"wifi"` succeeds yet leaves the column set unchanged —
no `wifi` column is added — and the inserted row carries no `wifi`
cell (its only data cell is the empty `"bluetooth"` map). -/
theorem AddSensor_no_dynamic_columns :
    AddSensor ⟨baseColumns, []⟩ wifiSample =
      .ok ⟨baseColumns, [⟨1, "phone", "", []⟩]⟩ ∧
      ¬ ("wifi" ∈ (sensorsTableAfter ⟨baseColumns, []⟩ wifiSample).columns) ∧
      "wifi" ∈ sensorCategories wifiSample := by
  refine ⟨rfl, by decide, by decide⟩

/-- **C1 (amended)** `AddSensor` reads the current columns but issues no
`ALTER TABLE`: on success the column set is unchanged and exactly one
row keyed by `s.timestamp` is appended whose only data cell is the
encoded `"bluetooth"` inner map; the statement is a plain insert, so a
duplicate timestamp fails (no upsert); consequently over any ingest
sequence the column set is constant, hence the column set at a later
time is a superset of (indeed equal to) the column set at any earlier
time. -/
theorem AddSensor_fixed_columns (t : SensorsTable) (s : SensorData) :
    (∀ t', AddSensor t s = .ok t' →
      t'.columns = t.columns ∧ t'.rows = t.rows ++ [insertedRow s]) ∧
    ((∃ r ∈ t.rows, r.timestamp = s.timestamp) →
      AddSensor t s = .error "AddSensor, execute") ∧
    (∀ seq : List SensorData, (ingestSeq t seq).columns = t.columns) := by
  refine ⟨?_, ?_, ?_⟩
  · intro t' h
    unfold AddSensor at h
    by_cases hc : t.rows.any (fun r => r.timestamp = s.timestamp)
    · rw [if_pos hc] at h
      cases h
    · rw [if_neg hc] at h
      cases h
      exact ⟨rfl, rfl⟩
  · intro ⟨r, hr, hts⟩
    unfold AddSensor
    rw [if_pos (List.any_eq_true.mpr ⟨r, hr, by simpa using hts⟩)]
  · have key : ∀ (seq : List SensorData) (t₀ : SensorsTable),
        (ingestSeq t₀ seq).columns = t₀.columns := by
      intro seq
      induction seq with
      | nil => intro t₀; rfl
      | cons s₀ rest ih =>
        intro t₀
        have hafter : (sensorsTableAfter t₀ s₀).columns = t₀.columns := by
          unfold sensorsTableAfter AddSensor
          by_cases hc : t₀.rows.any (fun r => r.timestamp = s₀.timestamp) <;>
            simp [hc]
        calc (ingestSeq t₀ (s₀ :: rest)).columns
            = (ingestSeq (sensorsTableAfter t₀ s₀) rest).columns := rfl
          _ = (sensorsTableAfter t₀ s₀).columns := ih _
          _ = t₀.columns := hafter
    exact fun seq => key seq t

/-- Witness for the amended C1: a concrete successful insert keeps the
base columns and appends the single bluetooth-encoded row; a duplicate
timestamp then fails. -/
theorem AddSensor_fixed_columns_witness :
    (AddSensor ⟨baseColumns, []⟩ wifiSample = .ok ⟨baseColumns, [⟨1, "phone", "", []⟩]⟩ →
      ((⟨baseColumns, [⟨1, "phone", "", []⟩]⟩ : SensorsTable)).columns = baseColumns) ∧
    (ingestSeq ⟨baseColumns, []⟩ [wifiSample, wifiSample]).columns = baseColumns := by
  constructor
  · intro h
    exact ((AddSensor_fixed_columns ⟨baseColumns, []⟩ wifiSample).1 _ h).1
  · exact (AddSensor_fixed_columns ⟨baseColumns, []⟩ wifiSample).2.2 [wifiSample, wifiSample]

theorem setGPSLoop_ok (table : List GpsRow) (execFails : GpsRow → Bool) :
    ∀ rows buffer, (∀ r ∈ rows, execFails r = false) →
      setGPSLoop table execFails buffer rows = .ok (table ++ buffer ++ rows) := by
  intro rows
  induction rows with
  | nil => intro buffer _; simp [setGPSLoop]
  | cons r rest ih =>
    intro buffer h
    have hr : execFails r = false := h r (by simp)
    simp only [setGPSLoop, hr, Bool.false_eq_true, if_false]
    rw [ih (buffer ++ [r]) (fun x hx => h x (by simp [hx]))]
    simp

theorem setGPSLoop_err (table : List GpsRow) (execFails : GpsRow → Bool) :
    ∀ rows buffer, (∃ r ∈ rows, execFails r = true) →
      setGPSLoop table execFails buffer rows = .error "SetGPS" := by
  intro rows
  induction rows with
  | nil => intro buffer h; simp at h
  | cons r rest ih =>
    intro buffer ⟨x, hx, hfail⟩
    by_cases hr : execFails r = true
    · simp [setGPSLoop, hr]
    · simp only [setGPSLoop, hr, if_false]
      rcases List.mem_cons.mp hx with h1 | h2
      · subst h1; exact absurd hfail hr
      · exact ih (buffer ++ [r]) ⟨x, h2, hfail⟩

/-- **C8** `SetGPS(s)` writes, inside a single transaction, exactly one
gps row per `(category, mac)` pair of `s.sensors` — each row being
`(timestamp, category-mac, location, lat, lon, alt)` — appended to the
table when every execute succeeds; if any execute fails, the
transaction never commits and the committed gps table is unchanged (no
partial set of rows). -/
theorem SetGPS_transactional (table : List GpsRow) (p : SensorData)
    (execFails : GpsRow → Bool) :
    ((∀ r ∈ gpsRowsOf p, execFails r = false) →
      SetGPS table p execFails = .ok (table ++ gpsRowsOf p) ∧
      gpsTableAfter table p execFails = table ++ gpsRowsOf p) ∧
    ((∃ r ∈ gpsRowsOf p, execFails r = true) →
      SetGPS table p execFails = .error "SetGPS" ∧
      gpsTableAfter table p execFails = table) ∧
    (∀ cat inner, (cat, inner) ∈ p.sensors → ∀ mv ∈ inner,
      gpsRowOf p cat mv.1 ∈ gpsRowsOf p ∧
      gpsRowOf p cat mv.1 = ⟨p.timestamp, cat ++ "-" ++ mv.1, p.location,
        p.gps.latitude, p.gps.longitude, p.gps.altitude⟩) := by
  refine ⟨?_, ?_, ?_⟩
  · intro h
    have := setGPSLoop_ok table execFails (gpsRowsOf p) [] h
    simp only [List.append_nil, List.nil_append] at this
    exact ⟨this, by unfold gpsTableAfter; rw [show SetGPS table p execFails = _ from this]⟩
  · intro h
    have := setGPSLoop_err table execFails (gpsRowsOf p) [] h
    exact ⟨this, by unfold gpsTableAfter; rw [show SetGPS table p execFails = _ from this]⟩
  · intro cat inner hci mv hmv
    refine ⟨?_, rfl⟩
    unfold gpsRowsOf
    rw [List.mem_flatMap]
    exact ⟨(cat, inner), hci, List.mem_map.mpr ⟨mv, hmv, rfl⟩⟩

/-- Witness for C8: a concrete two-pair fingerprint commits exactly its
two rows when no execute fails, and commits nothing when the second
execute fails. -/
theorem SetGPS_transactional_witness :
    (∀ r ∈ gpsRowsOf wifiSample, (fun _ => false) r = false) ∧
    SetGPS [] wifiSample (fun _ => false) = .ok ([] ++ gpsRowsOf wifiSample) ∧
    (∃ r ∈ gpsRowsOf wifiSample, (fun r => r.mac == "wifi-aa:bb") r = true) ∧
    gpsTableAfter [] wifiSample (fun r => r.mac == "wifi-aa:bb") = [] := by
  have hall : ∀ r ∈ gpsRowsOf wifiSample, (fun _ => false) r = false := fun _ _ => rfl
  have hex : ∃ r ∈ gpsRowsOf wifiSample, (fun r => r.mac == "wifi-aa:bb") r = true := by
    refine ⟨gpsRowOf wifiSample "wifi" "aa:bb", ?_, by decide⟩
    exact ((SetGPS_transactional [] wifiSample (fun _ => false)).2.2 "wifi"
      [("aa:bb", -10)] (by decide) ("aa:bb", -10) (by decide)).1
  exact ⟨hall, ((SetGPS_transactional [] wifiSample (fun _ => false)).1 hall).1, hex,
    ((SetGPS_transactional [] wifiSample (fun r => r.mac == "wifi-aa:bb")).2.1 hex).2⟩

/-- **C3** The delivery guard is `len(justSave) < 0 || !justSave[0]`:
`len(justSave) < 0` is never true, so with the variadic argument
omitted the code indexes an empty slice and panics *after* saving;
with an explicit `false` it saves and dispatches delivery, and with
`true` it saves and skips delivery — contradicting the claim that the
omitted form completes without error and delivers. -/
theorem processSensorData_omitted_variadic_panics :
    justSaveGuard [] = none ∧
    justSaveGuard [false] = some true ∧
    justSaveGuard [true] = some false ∧
    processSensorData scan1 [] db0 (fun _ => false) =
      .indexPanic ⟨⟨baseColumns, [⟨1, "s1", "", [("aa:bb", -50)]⟩]⟩, []⟩ ∧
    processSensorData scan1 [false] db0 (fun _ => false) =
      .done true ⟨⟨baseColumns, [⟨1, "s1", "", [("aa:bb", -50)]⟩]⟩, []⟩ ∧
    processSensorData scan1 [true] db0 (fun _ => false) =
      .done false ⟨⟨baseColumns, [⟨1, "s1", "", [("aa:bb", -50)]⟩]⟩, []⟩ := by
  refine ⟨rfl, rfl, rfl, rfl, rfl, rfl⟩

/-- **C5** Flushing `rdTwoSamples` (minimumPassive = 2) synthesizes the
two fingerprints of spec scenario 3; `bluetooth-cc:dd` with a single
scanner observation is below the threshold and is dropped — never
handed to `processSensorData` — while `bluetooth-aa:bb` reaches the
threshold and is handed to the pipeline; but that call passes no
`justSave` argument, so instead of ingesting with delivery enabled it
saves the fingerprint and then panics on `justSave[0]`. -/
theorem flushEmit_minimum_passive_bug :
    parseRollingData rdTwoSamples 100000 =
      some ({ rdTwoSamples with hasData := false }, flushMap) ∧
    flushEmit flushMap 2 = [fpAabb] ∧
    ((totalPoints fpCcdd : Int) < 2 ∧ fpCcdd ∉ flushEmit flushMap 2) ∧
    processSensorData fpAabb [] db0 (fun _ => false) =
      .indexPanic ⟨⟨baseColumns, [⟨100000, "bluetooth-aa:bb", "",
        [("s1-bluetooth", -50), ("s2-bluetooth", -70)]⟩]⟩, []⟩ := by
  refine ⟨rfl, rfl, ⟨by decide, by decide⟩, rfl⟩

/-- **C6 counterexample** Flushing the one-sample window writes back a
record with `hasData = false` but with the `datas` sequence *not*
emptied (the code never clears `Datas`; it is only reset lazily by the
next first passive sample), contradicting the claim that the written
record has an empty `datas`. -/
theorem parseRollingData_datas_not_cleared :
    (parseRollingData rdOneSample 100000).map (fun pm => (pm.1.hasData, pm.1.datas)) =
      some (false, [scan1]) ∧
    [scan1] ≠ ([] : List SensorData) := by
  refine ⟨rfl, by decide⟩

/-- **C6 (amended)** Whenever `parseRollingData` performs a transpose
(window open, more than `timeBlock` elapsed) and the merge completes,
the record written back has `hasData = false` with every other field —
including the stale `datas` sequence — unchanged; a subsequent first
passive sample re-opens a fresh window: `handlerReverse` resets the
window-open instant, empties `datas`, sets `hasData`, and appends just
the new sample. -/
theorem handlerReverseUpdate_reopen (fam : String) (rd : ReverseRollingData)
    (d : SensorData) (now2 : Int) (hclosed : rd.hasData = false)
    (hd : d.sensors.isEmpty = false) :
    handlerReverseUpdate (some rd) fam d now2 =
      .ok { rd with timeBlock := if rd.timeBlock = 0 then 90000 else rd.timeBlock,
                    timestamp := now2, hasData := true, datas := [d] } := by
  unfold handlerReverseUpdate
  by_cases htb : rd.timeBlock = 0
  · simp [htb, hclosed, hd]
  · simp [htb, hclosed, hd]

theorem parseRollingData_reset (rd : ReverseRollingData) (now now2 : Int)
    (hopen : rd.hasData ∧ now - rd.timestamp > rd.timeBlock)
    (rd' : ReverseRollingData) (m : SensorMap)
    (hp : parseRollingData rd now = some (rd', m)) :
    rd'.hasData = false ∧ rd'.datas = rd.datas ∧ rd' = { rd with hasData := false } ∧
    (∀ d : SensorData, d.sensors.isEmpty = false →
      ∀ rd'', handlerReverseUpdate (some rd') rd'.family d now2 = .ok rd'' →
        rd''.hasData = true ∧ rd''.datas = [d] ∧ rd''.timestamp = now2) := by
  unfold parseRollingData at hp
  rw [if_pos hopen] at hp
  have hrd' : rd' = { rd with hasData := false } := by
    cases htr : transposeData rd.family now rd.deviceLocation rd.deviceGPS rd.datas with
    | none => rw [htr] at hp; cases hp
    | some m0 => rw [htr] at hp; cases hp; rfl
  subst hrd'
  refine ⟨rfl, rfl, rfl, ?_⟩
  intro d hd rd'' h
  rw [handlerReverseUpdate_reopen _ _ _ _ rfl hd] at h
  cases h
  exact ⟨rfl, rfl, rfl⟩

/-- Witness for the amended C6 at the one-sample window. -/
theorem parseRollingData_reset_witness :
    (rdOneSample.hasData ∧ (100000 : Int) - rdOneSample.timestamp > rdOneSample.timeBlock) ∧
    ∀ rd'' , handlerReverseUpdate (some { rdOneSample with hasData := false })
        "home" scan2 200000 = .ok rd'' →
      rd''.hasData = true ∧ rd''.datas = [scan2] ∧ rd''.timestamp = 200000 := by
  have hopen : rdOneSample.hasData ∧
      (100000 : Int) - rdOneSample.timestamp > rdOneSample.timeBlock := by decide
  refine ⟨hopen, ?_⟩
  have hmain := parseRollingData_reset rdOneSample 100000 200000 hopen
    { rdOneSample with hasData := false }
    [("bluetooth-aa:bb", { fpAabb with sensors := [("bluetooth", [("s1-bluetooth", -50)])] })]
    rfl
  intro rd'' h
  exact hmain.2.2.2 scan2 (by decide) rd'' h

/-- **C7 counterexample** When the classifier's GPS data lacks the top
guess's location, `sendOutData` sets the payload's latitude and
longitude to `-1` but leaves the altitude untouched: for an incoming
fingerprint with altitude 7 the delivered `sensors.gps` is
`(-1, -1, 7)`, not the claimed `(-1, -1, 0)`. -/
theorem sendOutData_altitude_not_reset :
    (sendOutData pAlt analysisKitchen false []).map (fun pl => pl.sensors.gps) =
      .ok ⟨-1, -1, 7⟩ ∧
    (⟨-1, -1, 7⟩ : GPS) ≠ ⟨-1, -1, 0⟩ := by
  refine ⟨rfl, by decide⟩

/-- **C7 (amended)** During post-save delivery with a non-empty guess
list: when `GetGPSData` succeeded and its map contains the top guess's
location, the payload's latitude and longitude are taken from that
location's GPS data; when the location is absent or retrieval failed,
they are set to `-1` and `-1`.  In both cases the altitude keeps the
incoming fingerprint's value (it is never reset to 0). -/
theorem sendOutData_gps_enrichment (p : SensorData) (analysis : LocationAnalysis)
    (gpsDataErr : Bool) (gpsData : List (String × GPS))
    (top : LocationPrediction) (rest : List LocationPrediction)
    (hg : analysis.guesses = top :: rest) :
    (∀ g, gpsDataErr = false → alookup top.location gpsData = some g →
      sendOutData p analysis gpsDataErr gpsData =
        .ok ⟨{ p with gps := ⟨g.latitude, g.longitude, p.gps.altitude⟩ },
          analysis.guesses, top.location, p.timestamp⟩) ∧
    ((gpsDataErr = true ∨ alookup top.location gpsData = none) →
      sendOutData p analysis gpsDataErr gpsData =
        .ok ⟨{ p with gps := ⟨-1, -1, p.gps.altitude⟩ },
          analysis.guesses, top.location, p.timestamp⟩) := by
  constructor
  · intro g herr hloc
    subst herr
    simp only [sendOutData, hg, hloc]
  · intro habs
    rcases habs with herr | hloc
    · subst herr
      simp only [sendOutData, hg]
    · cases gpsDataErr <;> simp only [sendOutData, hg, hloc]

/-- Witness for the amended C7: with GPS data present for `"kitchen"`
the payload takes that latitude/longitude (altitude kept); with no GPS
data the payload gets `-1` / `-1` (altitude kept). -/
theorem sendOutData_gps_enrichment_witness :
    (analysisKitchen.guesses = ⟨"kitchen", 1⟩ :: []) ∧
    sendOutData pAlt analysisKitchen false [("kitchen", ⟨1, 2, 9⟩)] =
      .ok ⟨{ pAlt with gps := ⟨1, 2, 7⟩ }, analysisKitchen.guesses, "kitchen", 42⟩ ∧
    sendOutData pAlt analysisKitchen false [] =
      .ok ⟨{ pAlt with gps := ⟨-1, -1, 7⟩ }, analysisKitchen.guesses, "kitchen", 42⟩ := by
  refine ⟨rfl, ?_, ?_⟩
  · have h := (sendOutData_gps_enrichment pAlt analysisKitchen false
      [("kitchen", ⟨1, 2, 9⟩)] ⟨"kitchen", 1⟩ [] rfl).1 ⟨1, 2, 9⟩ rfl rfl
    rw [h]
    rfl
  · have h := (sendOutData_gps_enrichment pAlt analysisKitchen false
      [] ⟨"kitchen", 1⟩ [] rfl).2 (Or.inr rfl)
    rw [h]
    rfl

/-! ## C2: characterizing the window transpose -/

theorem trackedName_mac_inj {cat mac1 mac2 : String}
    (h : trackedName cat mac1 = trackedName cat mac2) : mac1 = mac2 := by
  apply String.ext
  have hd := congrArg String.data h
  simp only [trackedName, String.data_append] at hd
  exact List.append_cancel_left hd

theorem scannerKey_scanner_inj {s1 s2 cat : String}
    (h : scannerKey s1 cat = scannerKey s2 cat) : s1 = s2 := by
  apply String.ext
  have hd := congrArg String.data h
  simp only [scannerKey, String.data_append, List.append_assoc] at hd
  exact List.append_cancel_right hd

theorem evolve_cons_miss {family : String} {now : Int}
    {dl : List (String × String)} {dg : List (String × GPS)} {name : String}
    {o : Obs} (l : List Obs) (cur : Option SensorData)
    (h : ¬ trackedName o.cat o.mac = name) :
    evolve family now dl dg name cur (o :: l) = evolve family now dl dg name cur l := by
  simp only [evolve]
  rw [if_neg h]

theorem evolve_cons_hit_none {family : String} {now : Int}
    {dl : List (String × String)} {dg : List (String × GPS)} {name : String}
    {o : Obs} (l : List Obs) (h : trackedName o.cat o.mac = name) :
    evolve family now dl dg name none (o :: l) =
      evolve family now dl dg name
        (some (writeObs (freshEntry family now dl dg name o.cat) o [])) l := by
  simp only [evolve]
  rw [if_pos h]

theorem evolve_cons_hit_some_none {family : String} {now : Int}
    {dl : List (String × String)} {dg : List (String × GPS)} {name : String}
    {o : Obs} (l : List Obs) (sd : SensorData)
    (h : trackedName o.cat o.mac = name) (h2 : alookup o.cat sd.sensors = none) :
    evolve family now dl dg name (some sd) (o :: l) = none := by
  simp only [evolve, h2]
  rw [if_pos h]

theorem evolve_cons_hit_some_some {family : String} {now : Int}
    {dl : List (String × String)} {dg : List (String × GPS)} {name : String}
    {o : Obs} (l : List Obs) (sd : SensorData) (inner : List (String × Rat))
    (h : trackedName o.cat o.mac = name) (h2 : alookup o.cat sd.sensors = some inner) :
    evolve family now dl dg name (some sd) (o :: l) =
      evolve family now dl dg name (some (writeObs sd o inner)) l := by
  simp only [evolve, h2]
  rw [if_pos h]

theorem addObs_hit_none {family : String} {now : Int}
    {dl : List (String × String)} {dg : List (String × GPS)}
    {m : SensorMap} {o : Obs}
    (h1 : alookup (trackedName o.cat o.mac) m = none) :
    addObs family now dl dg m o = some (alUpsert (trackedName o.cat o.mac)
      (writeObs (freshEntry family now dl dg (trackedName o.cat o.mac) o.cat) o []) m) := by
  simp only [addObs, h1]

theorem addObs_hit_some_none {family : String} {now : Int}
    {dl : List (String × String)} {dg : List (String × GPS)}
    {m : SensorMap} {o : Obs} {sd : SensorData}
    (h1 : alookup (trackedName o.cat o.mac) m = some sd)
    (h2 : alookup o.cat sd.sensors = none) :
    addObs family now dl dg m o = none := by
  simp only [addObs, h1, h2]

theorem addObs_hit_some_some {family : String} {now : Int}
    {dl : List (String × String)} {dg : List (String × GPS)}
    {m : SensorMap} {o : Obs} {sd : SensorData} {inner : List (String × Rat)}
    (h1 : alookup (trackedName o.cat o.mac) m = some sd)
    (h2 : alookup o.cat sd.sensors = some inner) :
    addObs family now dl dg m o =
      some (alUpsert (trackedName o.cat o.mac) (writeObs sd o inner) m) := by
  simp only [addObs, h1, h2]

theorem addObs_lookup_ne {family : String} {now : Int}
    {dl : List (String × String)} {dg : List (String × GPS)}
    {m m' : SensorMap} {o : Obs}
    (h : addObs family now dl dg m o = some m') (nm : String)
    (hne : nm ≠ trackedName o.cat o.mac) : alookup nm m' = alookup nm m := by
  cases h1 : alookup (trackedName o.cat o.mac) m with
  | none =>
    rw [addObs_hit_none h1] at h
    cases h
    exact alookup_alUpsert_ne _ _ _ hne _
  | some sd =>
    cases h2 : alookup o.cat sd.sensors with
    | none => rw [addObs_hit_some_none h1 h2] at h; cases h
    | some inner =>
      rw [addObs_hit_some_some h1 h2] at h
      cases h
      exact alookup_alUpsert_ne _ _ _ hne _

/-- Per-name simulation: a successful `obsFold` run is tracked, for
every name, by `evolve` acting on that name's entry. -/
theorem obsFold_evolve (family : String) (now : Int)
    (dl : List (String × String)) (dg : List (String × GPS)) :
    ∀ (l : List Obs) (m m' : SensorMap),
      obsFold family now dl dg m l = some m' →
      ∀ name, evolve family now dl dg name (alookup name m) l =
        some (alookup name m') := by
  intro l
  induction l with
  | nil =>
    intro m m' h name
    simp only [obsFold, Option.some.injEq] at h
    subst h
    rfl
  | cons o l ih =>
    intro m m' h name
    cases ha : addObs family now dl dg m o with
    | none =>
      simp only [obsFold, ha] at h
      exact Option.noConfusion h
    | some m1 =>
      simp only [obsFold, ha] at h
      by_cases hn : trackedName o.cat o.mac = name
      · subst hn
        cases h1 : alookup (trackedName o.cat o.mac) m with
        | none =>
          rw [addObs_hit_none h1] at ha
          cases ha
          rw [evolve_cons_hit_none l rfl]
          have hrest := ih _ _ h (trackedName o.cat o.mac)
          rw [alookup_alUpsert_self] at hrest
          exact hrest
        | some sd =>
          cases h2 : alookup o.cat sd.sensors with
          | none => rw [addObs_hit_some_none h1 h2] at ha; cases ha
          | some inner =>
            rw [addObs_hit_some_some h1 h2] at ha
            cases ha
            rw [evolve_cons_hit_some_some l sd inner rfl h2]
            have hrest := ih _ _ h (trackedName o.cat o.mac)
            rw [alookup_alUpsert_self] at hrest
            exact hrest
      · rw [evolve_cons_miss l _ hn]
        have hkeep : alookup name m1 = alookup name m :=
          addObs_lookup_ne ha name (fun he => hn he.symm)
        have hrest := ih _ _ h name
        rw [hkeep] at hrest
        exact hrest

/-- A successful `evolve` yields an entry exactly when one started with
one or some observation in the list carries the name. -/
theorem evolve_isSome (family : String) (now : Int)
    (dl : List (String × String)) (dg : List (String × GPS)) (name : String) :
    ∀ (l : List Obs) (cur : Option SensorData) (res : Option SensorData),
      evolve family now dl dg name cur l = some res →
      (res.isSome = true ↔
        (cur.isSome = true ∨ ∃ o ∈ l, trackedName o.cat o.mac = name)) := by
  intro l
  induction l with
  | nil =>
    intro cur res h
    simp only [evolve, Option.some.injEq] at h
    subst h
    simp
  | cons o l ih =>
    intro cur res h
    by_cases hn : trackedName o.cat o.mac = name
    · have hhead : ∃ x ∈ o :: l, trackedName x.cat x.mac = name := ⟨o, by simp, hn⟩
      cases cur with
      | none =>
        rw [evolve_cons_hit_none l hn] at h
        have hres := (ih _ _ h).mpr (Or.inl rfl)
        simp only [hres, true_iff]
        exact Or.inr hhead
      | some sd =>
        cases h2 : alookup o.cat sd.sensors with
        | none =>
          rw [evolve_cons_hit_some_none l sd hn h2] at h
          exact Option.noConfusion h
        | some inner =>
          rw [evolve_cons_hit_some_some l sd inner hn h2] at h
          have hres := (ih _ _ h).mpr (Or.inl rfl)
          simp only [hres, true_iff]
          exact Or.inl rfl
    · rw [evolve_cons_miss l _ hn] at h
      rw [ih _ _ h]
      constructor
      · rintro (hc | ⟨x, hx, hxn⟩)
        · exact Or.inl hc
        · exact Or.inr ⟨x, List.mem_cons_of_mem _ hx, hxn⟩
      · rintro (hc | ⟨x, hx, hxn⟩)
        · exact Or.inl hc
        · rcases List.mem_cons.mp hx with rfl | hx'
          · exact absurd hxn hn
          · exact Or.inr ⟨x, hx', hxn⟩

theorem gatherAcc_cons_hit {cat mac : String} {o : Obs}
    (inner : List (String × Rat)) (l : List Obs)
    (h : o.cat = cat ∧ o.mac = mac) :
    gatherAcc cat mac inner (o :: l) =
      gatherAcc cat mac (alUpsert (scannerKey o.scanner cat) o.rssi inner) l := by
  simp only [gatherAcc]
  rw [if_pos h]

theorem gatherAcc_cons_miss {cat mac : String} {o : Obs}
    (inner : List (String × Rat)) (l : List Obs)
    (h : ¬ (o.cat = cat ∧ o.mac = mac)) :
    gatherAcc cat mac inner (o :: l) = gatherAcc cat mac inner l := by
  simp only [gatherAcc]
  rw [if_neg h]

/-- Characterization of a successful `evolve` from an existing entry
whose `Sensors` holds the single category `cat`: the run only ever
touches that category — every same-name observation is in fact an
observation of the pair `(cat, mac)` — and the final entry is the same
record with the inner map evolved by last-wins writes. -/
theorem evolve_entry_char (family : String) (now : Int)
    (dl : List (String × String)) (dg : List (String × GPS))
    (cat mac : String) :
    ∀ (l : List Obs) (sd : SensorData) (inner : List (String × Rat))
      (res : Option SensorData),
      sd.sensors = [(cat, inner)] →
      evolve family now dl dg (trackedName cat mac) (some sd) l = some res →
      res = some { sd with sensors := [(cat, gatherAcc cat mac inner l)] } ∧
      ∀ o ∈ l, trackedName o.cat o.mac = trackedName cat mac →
        (o.cat = cat ∧ o.mac = mac) := by
  intro l
  induction l with
  | nil =>
    intro sd inner res hsd h
    simp only [evolve, Option.some.injEq] at h
    subst h
    refine ⟨?_, by simp⟩
    simp only [gatherAcc]
    rw [← hsd]
  | cons o l ih =>
    intro sd inner res hsd h
    by_cases hn : trackedName o.cat o.mac = trackedName cat mac
    · by_cases hc : o.cat = cat
      · have hm : o.mac = mac := by
          subst hc
          exact trackedName_mac_inj hn
        have h2 : alookup o.cat sd.sensors = some inner := by
          rw [hsd, hc]
          simp [alookup]
        rw [evolve_cons_hit_some_some l sd inner hn h2] at h
        have hsd' : (writeObs sd o inner).sensors =
            [(cat, alUpsert (scannerKey o.scanner cat) o.rssi inner)] := by
          simp only [writeObs, hsd, hc, hm]
          simp [alUpsert]
        obtain ⟨hres, hall⟩ := ih (writeObs sd o inner)
          (alUpsert (scannerKey o.scanner cat) o.rssi inner) res hsd' h
        constructor
        · rw [hres]
          rw [gatherAcc_cons_hit inner l ⟨hc, hm⟩]
          rfl
        · intro x hx hxname
          rcases List.mem_cons.mp hx with rfl | hx'
          · exact ⟨hc, hm⟩
          · exact hall x hx' hxname
      · have h2 : alookup o.cat sd.sensors = none := by
          rw [hsd]
          simp [alookup, hc]
        rw [evolve_cons_hit_some_none l sd hn h2] at h
        exact Option.noConfusion h
    · rw [evolve_cons_miss l _ hn] at h
      have hskip : ¬ (o.cat = cat ∧ o.mac = mac) := by
        rintro ⟨hc, hm⟩
        exact hn (by rw [hc, hm])
      obtain ⟨hres, hall⟩ := ih sd inner res hsd h
      constructor
      · rw [hres, gatherAcc_cons_miss inner l hskip]
      · intro x hx hxname
        rcases List.mem_cons.mp hx with rfl | hx'
        · exact absurd hxname hn
        · exact hall x hx' hxname

/-- Characterization of a successful `evolve` from no entry, given that
the pair `(cat, mac)` is actually observed in the list: the entry is
created by the first same-name observation — which the success of the
run forces to be an observation of `(cat, mac)` itself — and ends as
the fresh record with the gathered inner map. -/
theorem evolve_creation_char (family : String) (now : Int)
    (dl : List (String × String)) (dg : List (String × GPS))
    (cat mac : String) :
    ∀ (l : List Obs) (res : Option SensorData),
      evolve family now dl dg (trackedName cat mac) none l = some res →
      (∃ o ∈ l, o.cat = cat ∧ o.mac = mac) →
      res = some { freshEntry family now dl dg (trackedName cat mac) cat with
        sensors := [(cat, gatherAcc cat mac [] l)] } := by
  intro l
  induction l with
  | nil =>
    intro res h hocc
    simp at hocc
  | cons o l ih =>
    intro res h hocc
    by_cases hn : trackedName o.cat o.mac = trackedName cat mac
    · rw [evolve_cons_hit_none l hn] at h
      have hsd' : (writeObs (freshEntry family now dl dg (trackedName cat mac) o.cat)
          o []).sensors =
          [(o.cat, alUpsert (scannerKey o.scanner o.cat) o.rssi [])] := by
        simp only [writeObs, freshEntry]
        simp [alUpsert]
      have hchar := evolve_entry_char family now dl dg o.cat o.mac l
        (writeObs (freshEntry family now dl dg (trackedName cat mac) o.cat) o [])
        (alUpsert (scannerKey o.scanner o.cat) o.rssi []) res hsd' (by rw [hn]; exact h)
      obtain ⟨hres, hall⟩ := hchar
      have hocm : o.cat = cat ∧ o.mac = mac := by
        rcases hocc with ⟨x, hx, hxc, hxm⟩
        rcases List.mem_cons.mp hx with rfl | hx'
        · exact ⟨hxc, hxm⟩
        · have hxname : trackedName x.cat x.mac = trackedName o.cat o.mac := by
            rw [hxc, hxm, hn]
          obtain ⟨hc2, hm2⟩ := hall x hx' hxname
          exact ⟨hc2 ▸ hxc, hm2 ▸ hxm⟩
      obtain ⟨hc, hm⟩ := hocm
      rw [hres]
      rw [gatherAcc_cons_hit [] l ⟨hc, hm⟩]
      subst hc
      subst hm
      rfl
    · rw [evolve_cons_miss l _ hn] at h
      have hskip : ¬ (o.cat = cat ∧ o.mac = mac) := by
        rintro ⟨hc, hm⟩
        exact hn (by rw [hc, hm])
      have hocc' : ∃ x ∈ l, x.cat = cat ∧ x.mac = mac := by
        rcases hocc with ⟨x, hx, hxc, hxm⟩
        rcases List.mem_cons.mp hx with rfl | hx'
        · exact absurd ⟨hxc, hxm⟩ hskip
        · exact ⟨x, hx', hxc, hxm⟩
      rw [ih res h hocc', gatherAcc_cons_miss [] l hskip]

theorem gatherAcc_append (cat mac : String) :
    ∀ (l1 l2 : List Obs) (inner : List (String × Rat)),
      gatherAcc cat mac inner (l1 ++ l2) =
        gatherAcc cat mac (gatherAcc cat mac inner l1) l2 := by
  intro l1
  induction l1 with
  | nil => intro l2 inner; rfl
  | cons o l1 ih =>
    intro l2 inner
    by_cases h : o.cat = cat ∧ o.mac = mac
    · rw [List.cons_append, gatherAcc_cons_hit _ _ h, gatherAcc_cons_hit _ _ h, ih]
    · rw [List.cons_append, gatherAcc_cons_miss _ _ h, gatherAcc_cons_miss _ _ h, ih]

theorem gatherAcc_skip_all (cat mac : String) :
    ∀ (l : List Obs) (inner : List (String × Rat)),
      (∀ o ∈ l, ¬ (o.cat = cat ∧ o.mac = mac)) →
      gatherAcc cat mac inner l = inner := by
  intro l
  induction l with
  | nil => intro inner _; rfl
  | cons o l ih =>
    intro inner hall
    rw [gatherAcc_cons_miss _ _ (hall o (by simp))]
    exact ih inner (fun x hx => hall x (List.mem_cons_of_mem _ hx))

theorem gatherAcc_inner_obs (cat mac dev : String) :
    ∀ (inner0 : List (String × Rat)) (acc : List (String × Rat)),
      (inner0.map Prod.fst).Nodup →
      gatherAcc cat mac acc (inner0.map fun mv => ⟨dev, cat, mv.1, mv.2⟩) =
        (match alookup mac inner0 with
          | some r => alUpsert (scannerKey dev cat) r acc
          | none => acc) := by
  intro inner0
  induction inner0 with
  | nil => intro acc _; rfl
  | cons kv tail ih =>
    intro acc hnd
    obtain ⟨k, v⟩ := kv
    simp only [List.map_cons, List.nodup_cons] at hnd
    obtain ⟨hknot, hndtail⟩ := hnd
    rw [List.map_cons]
    change gatherAcc cat mac acc ((⟨dev, cat, k, v⟩ : Obs) ::
      tail.map fun mv => (⟨dev, cat, mv.1, mv.2⟩ : Obs)) = _
    by_cases hk : k = mac
    · have hcond : (⟨dev, cat, k, v⟩ : Obs).cat = cat ∧
          (⟨dev, cat, k, v⟩ : Obs).mac = mac := ⟨rfl, hk⟩
      rw [gatherAcc_cons_hit _ _ hcond]
      have hskip : ∀ o ∈ (tail.map fun mv => (⟨dev, cat, mv.1, mv.2⟩ : Obs)),
          ¬ (o.cat = cat ∧ o.mac = mac) := by
        intro o ho hcm
        simp only [List.mem_map] at ho
        obtain ⟨mv, hmv, rfl⟩ := ho
        have hmv1 : mv.1 = mac := hcm.2
        apply hknot
        rw [← hk] at hmv1
        exact List.mem_map.mpr ⟨mv, hmv, hmv1⟩
      rw [gatherAcc_skip_all cat mac _ _ hskip]
      simp only [alookup, hk, if_pos rfl]
      rfl
    · have hcond : ¬ ((⟨dev, cat, k, v⟩ : Obs).cat = cat ∧
          (⟨dev, cat, k, v⟩ : Obs).mac = mac) := fun hcm => hk hcm.2
      rw [gatherAcc_cons_miss _ _ hcond]
      rw [ih acc hndtail]
      have halk : alookup mac ((k, v) :: tail) = alookup mac tail := by
        simp only [alookup]
        rw [if_neg (fun he => hk he.symm)]
      rw [halk]

theorem gatherAcc_sample_obs (cat mac dev : String) :
    ∀ (sensors : List (String × List (String × Rat))) (acc : List (String × Rat)),
      (sensors.map Prod.fst).Nodup →
      (∀ ci ∈ sensors, (ci.2.map Prod.fst).Nodup) →
      gatherAcc cat mac acc
          (sensors.flatMap fun ci => ci.2.map fun mv => ⟨dev, ci.1, mv.1, mv.2⟩) =
        (match (alookup cat sensors).bind (alookup mac) with
          | some rssi => alUpsert (scannerKey dev cat) rssi acc
          | none => acc) := by
  intro sensors
  induction sensors with
  | nil => intro acc _ _; rfl
  | cons ci rest ih =>
    intro acc hnd hinner
    obtain ⟨c0, inner0⟩ := ci
    simp only [List.map_cons, List.nodup_cons] at hnd
    obtain ⟨hc0not, hndrest⟩ := hnd
    rw [List.flatMap_cons, gatherAcc_append]
    by_cases hc0 : c0 = cat
    · subst hc0
      rw [gatherAcc_inner_obs c0 mac dev inner0 acc
        (by simpa using hinner (c0, inner0) (by simp))]
      have hskip : ∀ o ∈ (rest.flatMap fun ci =>
          ci.2.map fun mv => (⟨dev, ci.1, mv.1, mv.2⟩ : Obs)),
          ¬ (o.cat = c0 ∧ o.mac = mac) := by
        intro o ho hcm
        simp only [List.mem_flatMap, List.mem_map] at ho
        obtain ⟨ci', hci', mv, hmv, rfl⟩ := ho
        apply hc0not
        rw [← hcm.1]
        exact List.mem_map.mpr ⟨ci', hci', rfl⟩
      rw [gatherAcc_skip_all c0 mac _ _ hskip]
      have halk : alookup c0 ((c0, inner0) :: rest) = some inner0 := by
        simp [alookup]
      rw [halk]
      rfl
    · have hskip : ∀ o ∈ (inner0.map fun mv => (⟨dev, c0, mv.1, mv.2⟩ : Obs)),
          ¬ (o.cat = cat ∧ o.mac = mac) := by
        intro o ho hcm
        simp only [List.mem_map] at ho
        obtain ⟨mv, hmv, rfl⟩ := ho
        exact hc0 hcm.1
      rw [gatherAcc_skip_all cat mac _ _ hskip]
      rw [ih acc hndrest (fun x hx => hinner x (List.mem_cons_of_mem _ hx))]
      have : alookup cat ((c0, inner0) :: rest) = alookup cat rest := by
        simp only [alookup]
        rw [if_neg (fun he => hc0 he.symm)]
      rw [this]

theorem gatherAcc_obsOfDatas (cat mac : String) :
    ∀ (datas : List SensorData) (acc : List (String × Rat)),
      (∀ d ∈ datas, WFSensors d) →
      gatherAcc cat mac acc (obsOfDatas datas) = gatherSpecAcc cat mac acc datas := by
  intro datas
  induction datas with
  | nil => intro acc _; rfl
  | cons d rest ih =>
    intro acc hwf
    obtain ⟨hnd, hinner⟩ := hwf d (by simp)
    rw [show obsOfDatas (d :: rest) = obsOfSample d ++ obsOfDatas rest from rfl]
    rw [gatherAcc_append]
    rw [show obsOfSample d =
      d.sensors.flatMap fun ci => ci.2.map fun mv => (⟨d.device, ci.1, mv.1, mv.2⟩ : Obs)
      from rfl]
    rw [gatherAcc_sample_obs cat mac d.device d.sensors acc hnd hinner]
    rw [ih _ (fun x hx => hwf x (List.mem_cons_of_mem _ hx))]
    rfl

theorem gatherSpecAcc_cons_some {cat mac : String} {d : SensorData} {r : Rat}
    (acc : List (String × Rat)) (rest : List SensorData)
    (hobs : (alookup cat d.sensors).bind (alookup mac) = some r) :
    gatherSpecAcc cat mac acc (d :: rest) =
      gatherSpecAcc cat mac (alUpsert (scannerKey d.device cat) r acc) rest := by
  simp only [gatherSpecAcc, hobs]

theorem gatherSpecAcc_cons_none {cat mac : String} {d : SensorData}
    (acc : List (String × Rat)) (rest : List SensorData)
    (hobs : (alookup cat d.sensors).bind (alookup mac) = none) :
    gatherSpecAcc cat mac acc (d :: rest) = gatherSpecAcc cat mac acc rest := by
  simp only [gatherSpecAcc, hobs]

theorem lastReportAcc_cons_some {cat mac scanner : String} {d : SensorData} {r : Rat}
    (start : Option Rat) (rest : List SensorData) (hdev : d.device = scanner)
    (hobs : (alookup cat d.sensors).bind (alookup mac) = some r) :
    lastReportAcc cat mac scanner start (d :: rest) =
      lastReportAcc cat mac scanner (some r) rest := by
  simp only [lastReportAcc, hobs]
  rw [if_pos hdev]

theorem lastReportAcc_cons_keep {cat mac scanner : String} {d : SensorData}
    (start : Option Rat) (rest : List SensorData)
    (h : ¬ d.device = scanner ∨ (alookup cat d.sensors).bind (alookup mac) = none) :
    lastReportAcc cat mac scanner start (d :: rest) =
      lastReportAcc cat mac scanner start rest := by
  rcases h with hdev | hobs
  · simp only [lastReportAcc]
    rw [if_neg hdev]
  · simp only [lastReportAcc, hobs]
    by_cases hdev : d.device = scanner
    · rw [if_pos hdev]
    · rw [if_neg hdev]

theorem gatherSpecAcc_lookup (cat mac scanner : String) :
    ∀ (datas : List SensorData) (acc : List (String × Rat)),
      alookup (scannerKey scanner cat) (gatherSpecAcc cat mac acc datas) =
        lastReportAcc cat mac scanner (alookup (scannerKey scanner cat) acc) datas := by
  intro datas
  induction datas with
  | nil => intro acc; rfl
  | cons d rest ih =>
    intro acc
    cases hobs : (alookup cat d.sensors).bind (alookup mac) with
    | none =>
      rw [gatherSpecAcc_cons_none acc rest hobs,
        lastReportAcc_cons_keep _ rest (Or.inr hobs), ih]
    | some r =>
      by_cases hdev : d.device = scanner
      · rw [gatherSpecAcc_cons_some acc rest hobs,
          lastReportAcc_cons_some _ rest hdev hobs, ih, hdev,
          alookup_alUpsert_self]
      · rw [gatherSpecAcc_cons_some acc rest hobs,
          lastReportAcc_cons_keep _ rest (Or.inl hdev), ih,
          alookup_alUpsert_ne (scannerKey d.device cat) (scannerKey scanner cat) r
            (fun he => hdev (scannerKey_scanner_inj he).symm) acc]

theorem alUpsert_keys_sub {α β : Type} [DecidableEq α] (k : α) (v : β) :
    ∀ (l : List (α × β)) (x : α), x ∈ (alUpsert k v l).map Prod.fst →
      x = k ∨ x ∈ l.map Prod.fst := by
  intro l
  induction l with
  | nil => intro x hx; simp [alUpsert] at hx; exact Or.inl hx
  | cons ab l ih =>
    intro x hx
    obtain ⟨a, b⟩ := ab
    by_cases h : a = k
    · simp only [alUpsert, if_pos h, List.map_cons, List.mem_cons] at hx
      rcases hx with rfl | hx
      · exact Or.inl rfl
      · exact Or.inr (by simp [hx])
    · simp only [alUpsert, if_neg h, List.map_cons, List.mem_cons] at hx
      rcases hx with rfl | hx
      · exact Or.inr (by simp)
      · rcases ih x hx with h1 | h2
        · exact Or.inl h1
        · exact Or.inr (by simp [h2])

theorem gatherSpecAcc_keys (cat mac : String) :
    ∀ (datas : List SensorData) (acc : List (String × Rat)) (x : String),
      x ∈ (gatherSpecAcc cat mac acc datas).map Prod.fst →
      x ∈ acc.map Prod.fst ∨ ∃ d ∈ datas, x = scannerKey d.device cat := by
  intro datas
  induction datas with
  | nil => intro acc x hx; exact Or.inl hx
  | cons d rest ih =>
    intro acc x hx
    cases hobs : (alookup cat d.sensors).bind (alookup mac) with
    | none =>
      rw [gatherSpecAcc_cons_none acc rest hobs] at hx
      rcases ih _ x hx with h1 | ⟨d2, hd2, he⟩
      · exact Or.inl h1
      · exact Or.inr ⟨d2, List.mem_cons_of_mem _ hd2, he⟩
    | some r =>
      rw [gatherSpecAcc_cons_some acc rest hobs] at hx
      rcases ih _ x hx with h1 | ⟨d2, hd2, he⟩
      · rcases alUpsert_keys_sub _ _ _ _ h1 with rfl | h2
        · exact Or.inr ⟨d, by simp, rfl⟩
        · exact Or.inl h2
      · exact Or.inr ⟨d2, List.mem_cons_of_mem _ hd2, he⟩

/-- **C2** For every completing flush of a passive window `datas` (the
merge loop of `parseRollingData` returning a `sensorMap`), with the
samples' maps well-formed: the tracked names present in `sensorMap`
are exactly `cat + "-" + mac` for the pairs `(cat, mac)` occurring in
some sample's sensors; and for each occurring pair the synthesized
fingerprint carries that name as its device, the window's family, the
learning location and GPS registered for the name (defaults "" and
zero), and a single inner map under `cat` holding, for each reporting
scanner's key `scanner + "-" + cat`, that scanner's reported RSSI,
the last report within the window winning on duplicates. -/
theorem transposeData_window (family : String) (now : Int)
    (dl : List (String × String)) (dg : List (String × GPS))
    (datas : List SensorData) (m : SensorMap)
    (h : transposeData family now dl dg datas = some m)
    (hwf : ∀ d ∈ datas, WFSensors d) :
    (∀ name : String, (alookup name m).isSome = true ↔
      ∃ d ∈ datas, ∃ ci ∈ d.sensors, ∃ mv ∈ ci.2, name = trackedName ci.1 mv.1) ∧
    (∀ cat mac : String,
      (∃ d ∈ datas, ∃ ci ∈ d.sensors, ci.1 = cat ∧ ∃ mv ∈ ci.2, mv.1 = mac) →
      ∃ sd, alookup (trackedName cat mac) m = some sd ∧
        sd.device = trackedName cat mac ∧
        sd.family = family ∧
        sd.timestamp = now ∧
        sd.location = (alookup (trackedName cat mac) dl).getD "" ∧
        sd.gps = (alookup (trackedName cat mac) dg).getD gpsZero ∧
        sd.sensors = [(cat, gatherSpec cat mac datas)] ∧
        (∀ scanner, alookup (scannerKey scanner cat) (gatherSpec cat mac datas) =
          lastReport cat mac scanner datas) ∧
        (∀ k ∈ (gatherSpec cat mac datas).map Prod.fst,
          ∃ d ∈ datas, k = scannerKey d.device cat)) := by
  have hsim : ∀ name, evolve family now dl dg name none (obsOfDatas datas) =
      some (alookup name m) := by
    intro name
    have := obsFold_evolve family now dl dg (obsOfDatas datas) [] m h name
    simpa using this
  constructor
  · intro name
    have hiff := evolve_isSome family now dl dg name (obsOfDatas datas) none
      (alookup name m) (hsim name)
    rw [hiff]
    simp only [Option.isSome_none, Bool.false_eq_true, false_or]
    constructor
    · rintro ⟨o, ho, rfl⟩
      simp only [obsOfDatas, obsOfSample, List.mem_flatMap, List.mem_map] at ho
      obtain ⟨d, hd, ci, hci, mv, hmv, rfl⟩ := ho
      exact ⟨d, hd, ci, hci, mv, hmv, rfl⟩
    · rintro ⟨d, hd, ci, hci, mv, hmv, rfl⟩
      refine ⟨⟨d.device, ci.1, mv.1, mv.2⟩, ?_, rfl⟩
      simp only [obsOfDatas, obsOfSample, List.mem_flatMap, List.mem_map]
      exact ⟨d, hd, ci, hci, mv, hmv, rfl⟩
  · intro cat mac hocc
    have hoccObs : ∃ o ∈ obsOfDatas datas, o.cat = cat ∧ o.mac = mac := by
      obtain ⟨d, hd, ci, hci, hc, mv, hmv, hm⟩ := hocc
      refine ⟨⟨d.device, ci.1, mv.1, mv.2⟩, ?_, hc, hm⟩
      simp only [obsOfDatas, obsOfSample, List.mem_flatMap, List.mem_map]
      exact ⟨d, hd, ci, hci, mv, hmv, rfl⟩
    have hchar := evolve_creation_char family now dl dg cat mac (obsOfDatas datas)
      (alookup (trackedName cat mac) m) (hsim (trackedName cat mac)) hoccObs
    have hg : gatherAcc cat mac [] (obsOfDatas datas) = gatherSpec cat mac datas :=
      gatherAcc_obsOfDatas cat mac datas [] hwf
    rw [hg] at hchar
    refine ⟨_, hchar, rfl, rfl, rfl, rfl, rfl, rfl, ?_, ?_⟩
    · intro scanner
      have := gatherSpecAcc_lookup cat mac scanner datas []
      simpa [gatherSpec, lastReport] using this
    · intro k hk
      have := gatherSpecAcc_keys cat mac datas [] k (by simpa [gatherSpec] using hk)
      simpa using this

/-- Witness for C2 at spec scenario 2: the two-scanner window flushes
into a map containing the synthetic device `bluetooth-aa:bb`. -/
theorem transposeData_window_witness :
    (transposeData "home" 1000 [] [] [scan1, scan2]).isSome = true ∧
    (∀ d ∈ [scan1, scan2], WFSensors d) ∧
    (∀ m, transposeData "home" 1000 [] [] [scan1, scan2] = some m →
      ∃ sd, alookup (trackedName "bluetooth" "aa:bb") m = some sd ∧
        sd.device = trackedName "bluetooth" "aa:bb") := by
  refine ⟨rfl, ?_, ?_⟩
  · intro d hd
    rcases List.mem_cons.mp hd with rfl | hd'
    · exact ⟨by decide, by decide⟩
    · rcases List.mem_cons.mp hd' with rfl | hd''
      · exact ⟨by decide, by decide⟩
      · simp at hd''
  · intro m hm
    have hwf : ∀ d ∈ [scan1, scan2], WFSensors d := by
      intro d hd
      rcases List.mem_cons.mp hd with rfl | hd'
      · exact ⟨by decide, by decide⟩
      · rcases List.mem_cons.mp hd' with rfl | hd''
        · exact ⟨by decide, by decide⟩
        · simp at hd''
    obtain ⟨sd, hsd, hdev, -⟩ :=
      (transposeData_window "home" 1000 [] [] [scan1, scan2] m hm hwf).2
        "bluetooth" "aa:bb"
        ⟨scan1, by simp, ("bluetooth", [("aa:bb", -50)]), by decide, rfl,
          ("aa:bb", -50), by decide, rfl⟩
    exact ⟨sd, hsd, hdev⟩
